import Mathlib

/-!
Verification of the configuration / URL-codec module of codeperfio/pprof
(package driver: the PprofConfig registry file and int/driver/settings.go).

Shallow embedding conventions:
* The Go struct PprofConfig becomes a Lean structure with the same field
  names (IntelSyntax is shortened to Intel here).
* Go float64 fields are modelled as exact decimal numbers (DecFloat,
  a canonical mantissa times a power of ten); fmt.Sprint and
  strconv.ParseFloat are modelled on the plain-decimal fragment (no NaN,
  Inf, hex floats, underscores, or the scientific-notation output regime
  that only triggers below 1e-4 or at or above 1e21): every value the
  module stores in these fields comes from a decimal literal or from
  parsing a decimal string, where the exact-decimal model agrees with
  the observable string behavior.
* Reflection (fieldPtr and the type switches in get/set) is modelled by
  the tagged value type ConfigValue together with getVal/updateField;
  the field descriptor table produced by init() becomes the literal list
  configFields.
* net/url Values is modelled as an association list with the first
  matching key providing Get, and Set/Del rewriting all entries of the
  key; URL keeps only its query, and the Encode step that canonicalizes
  RawQuery is dropped (it does not change any Get result).
* In-place mutation through pointers becomes explicit state passing:
  set, configure and applyURL return the updated configuration together
  with the optional error, and on every failure path the returned
  configuration is the untouched input, exactly as the Go code leaves
  the struct untouched on those paths.
* File IO in settings.go is modelled by explicit outcome values
  (ReadFileResult, and the outcome arguments of writeSettings); the
  encoding/json calls are modelled by their outcome (SettingsData).
-/

deriving instance DecidableEq for Except

/-- Identifies one field of PprofConfig, standing in for the
reflect.StructField stored in a configField. Order matches the Go
struct declaration order. -/
inductive FieldId where
  | Output
  | CallTree
  | RelativePercentages
  | Unit
  | CompactLabels
  | SourcePath
  | TrimPath
  | Intel
  | Mean
  | SampleIndex
  | DivideBy
  | Normalize
  | SortOrder
  | DropNegative
  | NodeCount
  | NodeFraction
  | EdgeFraction
  | Trim
  | Focus
  | Ignore
  | PruneFrom
  | Hide
  | Show
  | ShowFrom
  | TagFocus
  | TagIgnore
  | TagShow
  | TagHide
  | NoInlines
  | Granularity
deriving DecidableEq, BEq

/-- All PprofConfig fields in declaration order. -/
def allFieldIds : List FieldId :=
  [FieldId.Output, FieldId.CallTree, FieldId.RelativePercentages, FieldId.Unit,
   FieldId.CompactLabels, FieldId.SourcePath, FieldId.TrimPath, FieldId.Intel,
   FieldId.Mean, FieldId.SampleIndex, FieldId.DivideBy, FieldId.Normalize,
   FieldId.SortOrder, FieldId.DropNegative, FieldId.NodeCount, FieldId.NodeFraction,
   FieldId.EdgeFraction, FieldId.Trim, FieldId.Focus, FieldId.Ignore,
   FieldId.PruneFrom, FieldId.Hide, FieldId.Show, FieldId.ShowFrom,
   FieldId.TagFocus, FieldId.TagIgnore, FieldId.TagShow, FieldId.TagHide,
   FieldId.NoInlines, FieldId.Granularity]

/-- The semantic type of a PprofConfig field (the type reached through
fieldPtr in the Go code). -/
inductive FieldKind where
  | kstr
  | kint
  | kfloat
  | kbool
deriving DecidableEq, BEq

/-- An exact decimal number: the value num divided by 10 to the den10,
modelling the float64 values this module stores (see the header note).
Kept canonical: den10 is 0, or num is nonzero and not a multiple of 10,
so structural equality is value equality. -/
structure DecFloat where
  num : Int
  den10 : Nat
deriving DecidableEq, BEq

/-- Canonicalizes a mantissa and power-of-ten denominator by stripping
factors of ten that appear on both sides. -/
def canonDF (n : Int) : Nat → DecFloat
  | 0 => ⟨n, 0⟩
  | k + 1 => if n % 10 = 0 then canonDF (n / 10) k else ⟨n, k + 1⟩

/-- The dynamic value obtained through fieldPtr, i.e. the contents of the
interface returned by reflection, as a tagged union. -/
inductive ConfigValue where
  | vstr (s : String)
  | vint (i : Int)
  | vfloat (q : DecFloat)
  | vbool (b : Bool)
deriving DecidableEq, BEq

/-- PprofConfig holds settings for a single named PprofConfig.
Field names and order follow the Go struct (IntelSyntax appears as
Intel). float64 fields are exact decimals in this model. -/
structure PprofConfig where
  Output : String
  CallTree : Bool
  RelativePercentages : Bool
  Unit : String
  CompactLabels : Bool
  SourcePath : String
  TrimPath : String
  Intel : Bool
  Mean : Bool
  SampleIndex : String
  DivideBy : DecFloat
  Normalize : Bool
  SortOrder : String
  DropNegative : Bool
  NodeCount : Int
  NodeFraction : DecFloat
  EdgeFraction : DecFloat
  Trim : Bool
  Focus : String
  Ignore : String
  PruneFrom : String
  Hide : String
  Show : String
  ShowFrom : String
  TagFocus : String
  TagIgnore : String
  TagShow : String
  TagHide : String
  NoInlines : Bool
  Granularity : String
deriving DecidableEq

/-- DefaultConfig returns the default configuration values; it is
unaffected by flags and interactive assignments. -/
def DefaultConfig : PprofConfig :=
  { Output := ""
    CallTree := false
    RelativePercentages := false
    Unit := "minimum"
    CompactLabels := false
    SourcePath := ""
    TrimPath := ""
    Intel := false
    Mean := false
    SampleIndex := ""
    DivideBy := ⟨1, 0⟩
    Normalize := false
    SortOrder := "flat"
    DropNegative := false
    NodeCount := -1
    NodeFraction := ⟨5, 3⟩
    EdgeFraction := ⟨1, 3⟩
    Trim := true
    Focus := ""
    Ignore := ""
    PruneFrom := ""
    Hide := ""
    Show := ""
    ShowFrom := ""
    TagFocus := ""
    TagIgnore := ""
    TagShow := ""
    TagHide := ""
    NoInlines := false
    Granularity := "functions" }

/-- The static type of each field, as fixed by the Go struct. -/
def fieldKind : FieldId → FieldKind
  | FieldId.Output => FieldKind.kstr
  | FieldId.CallTree => FieldKind.kbool
  | FieldId.RelativePercentages => FieldKind.kbool
  | FieldId.Unit => FieldKind.kstr
  | FieldId.CompactLabels => FieldKind.kbool
  | FieldId.SourcePath => FieldKind.kstr
  | FieldId.TrimPath => FieldKind.kstr
  | FieldId.Intel => FieldKind.kbool
  | FieldId.Mean => FieldKind.kbool
  | FieldId.SampleIndex => FieldKind.kstr
  | FieldId.DivideBy => FieldKind.kfloat
  | FieldId.Normalize => FieldKind.kbool
  | FieldId.SortOrder => FieldKind.kstr
  | FieldId.DropNegative => FieldKind.kbool
  | FieldId.NodeCount => FieldKind.kint
  | FieldId.NodeFraction => FieldKind.kfloat
  | FieldId.EdgeFraction => FieldKind.kfloat
  | FieldId.Trim => FieldKind.kbool
  | FieldId.Focus => FieldKind.kstr
  | FieldId.Ignore => FieldKind.kstr
  | FieldId.PruneFrom => FieldKind.kstr
  | FieldId.Hide => FieldKind.kstr
  | FieldId.Show => FieldKind.kstr
  | FieldId.ShowFrom => FieldKind.kstr
  | FieldId.TagFocus => FieldKind.kstr
  | FieldId.TagIgnore => FieldKind.kstr
  | FieldId.TagShow => FieldKind.kstr
  | FieldId.TagHide => FieldKind.kstr
  | FieldId.NoInlines => FieldKind.kbool
  | FieldId.Granularity => FieldKind.kstr

/-- Reading a field through fieldPtr: the dereferenced dynamic value. -/
def getVal (cfg : PprofConfig) : FieldId → ConfigValue
  | FieldId.Output => ConfigValue.vstr cfg.Output
  | FieldId.CallTree => ConfigValue.vbool cfg.CallTree
  | FieldId.RelativePercentages => ConfigValue.vbool cfg.RelativePercentages
  | FieldId.Unit => ConfigValue.vstr cfg.Unit
  | FieldId.CompactLabels => ConfigValue.vbool cfg.CompactLabels
  | FieldId.SourcePath => ConfigValue.vstr cfg.SourcePath
  | FieldId.TrimPath => ConfigValue.vstr cfg.TrimPath
  | FieldId.Intel => ConfigValue.vbool cfg.Intel
  | FieldId.Mean => ConfigValue.vbool cfg.Mean
  | FieldId.SampleIndex => ConfigValue.vstr cfg.SampleIndex
  | FieldId.DivideBy => ConfigValue.vfloat cfg.DivideBy
  | FieldId.Normalize => ConfigValue.vbool cfg.Normalize
  | FieldId.SortOrder => ConfigValue.vstr cfg.SortOrder
  | FieldId.DropNegative => ConfigValue.vbool cfg.DropNegative
  | FieldId.NodeCount => ConfigValue.vint cfg.NodeCount
  | FieldId.NodeFraction => ConfigValue.vfloat cfg.NodeFraction
  | FieldId.EdgeFraction => ConfigValue.vfloat cfg.EdgeFraction
  | FieldId.Trim => ConfigValue.vbool cfg.Trim
  | FieldId.Focus => ConfigValue.vstr cfg.Focus
  | FieldId.Ignore => ConfigValue.vstr cfg.Ignore
  | FieldId.PruneFrom => ConfigValue.vstr cfg.PruneFrom
  | FieldId.Hide => ConfigValue.vstr cfg.Hide
  | FieldId.Show => ConfigValue.vstr cfg.Show
  | FieldId.ShowFrom => ConfigValue.vstr cfg.ShowFrom
  | FieldId.TagFocus => ConfigValue.vstr cfg.TagFocus
  | FieldId.TagIgnore => ConfigValue.vstr cfg.TagIgnore
  | FieldId.TagShow => ConfigValue.vstr cfg.TagShow
  | FieldId.TagHide => ConfigValue.vstr cfg.TagHide
  | FieldId.NoInlines => ConfigValue.vbool cfg.NoInlines
  | FieldId.Granularity => ConfigValue.vstr cfg.Granularity

/-- Writing a field through its typed pointer. A tag mismatch cannot
happen in the Go code (the pointer obtained from fieldPtr is typed), so
the mismatch rows return the configuration unchanged. -/
def updateField (cfg : PprofConfig) : FieldId → ConfigValue → PprofConfig
  | FieldId.Output, ConfigValue.vstr s => { cfg with Output := s }
  | FieldId.CallTree, ConfigValue.vbool b => { cfg with CallTree := b }
  | FieldId.RelativePercentages, ConfigValue.vbool b => { cfg with RelativePercentages := b }
  | FieldId.Unit, ConfigValue.vstr s => { cfg with Unit := s }
  | FieldId.CompactLabels, ConfigValue.vbool b => { cfg with CompactLabels := b }
  | FieldId.SourcePath, ConfigValue.vstr s => { cfg with SourcePath := s }
  | FieldId.TrimPath, ConfigValue.vstr s => { cfg with TrimPath := s }
  | FieldId.Intel, ConfigValue.vbool b => { cfg with Intel := b }
  | FieldId.Mean, ConfigValue.vbool b => { cfg with Mean := b }
  | FieldId.SampleIndex, ConfigValue.vstr s => { cfg with SampleIndex := s }
  | FieldId.DivideBy, ConfigValue.vfloat q => { cfg with DivideBy := q }
  | FieldId.Normalize, ConfigValue.vbool b => { cfg with Normalize := b }
  | FieldId.SortOrder, ConfigValue.vstr s => { cfg with SortOrder := s }
  | FieldId.DropNegative, ConfigValue.vbool b => { cfg with DropNegative := b }
  | FieldId.NodeCount, ConfigValue.vint i => { cfg with NodeCount := i }
  | FieldId.NodeFraction, ConfigValue.vfloat q => { cfg with NodeFraction := q }
  | FieldId.EdgeFraction, ConfigValue.vfloat q => { cfg with EdgeFraction := q }
  | FieldId.Trim, ConfigValue.vbool b => { cfg with Trim := b }
  | FieldId.Focus, ConfigValue.vstr s => { cfg with Focus := s }
  | FieldId.Ignore, ConfigValue.vstr s => { cfg with Ignore := s }
  | FieldId.PruneFrom, ConfigValue.vstr s => { cfg with PruneFrom := s }
  | FieldId.Hide, ConfigValue.vstr s => { cfg with Hide := s }
  | FieldId.Show, ConfigValue.vstr s => { cfg with Show := s }
  | FieldId.ShowFrom, ConfigValue.vstr s => { cfg with ShowFrom := s }
  | FieldId.TagFocus, ConfigValue.vstr s => { cfg with TagFocus := s }
  | FieldId.TagIgnore, ConfigValue.vstr s => { cfg with TagIgnore := s }
  | FieldId.TagShow, ConfigValue.vstr s => { cfg with TagShow := s }
  | FieldId.TagHide, ConfigValue.vstr s => { cfg with TagHide := s }
  | FieldId.NoInlines, ConfigValue.vbool b => { cfg with NoInlines := b }
  | FieldId.Granularity, ConfigValue.vstr s => { cfg with Granularity := s }
  | _, _ => cfg

/-- Decimal digit test, as in the Go number parsers. -/
def isDigitCh (c : Char) : Bool :=
  decide ('0' ≤ c) && decide (c ≤ '9')

/-- Numeric value of a list of decimal digits. -/
def digitsVal (cs : List Char) : Nat :=
  cs.foldl (fun acc c => acc * 10 + (c.toNat - '0'.toNat)) 0

/-- Splits a leading sign, as strconv does: returns (negative, rest). -/
def splitSign : List Char → Bool × List Char
  | '-' :: rest => (true, rest)
  | '+' :: rest => (false, rest)
  | cs => (false, cs)

/-- strconv.Atoi: optional sign followed by a nonempty run of decimal
digits. The int64 range check is dropped (integers are unbounded in
this model); no such value appears in this module. -/
def goAtoi (s : String) : Except String Int :=
  let (neg, ds) := splitSign s.data
  if ds ≠ [] ∧ ds.all isDigitCh then
    Except.ok (if neg then -(digitsVal ds : Int) else (digitsVal ds : Int))
  else
    Except.error ("strconv.Atoi: parsing \"" ++ s ++ "\": invalid syntax")

/-- Exponent part of a decimal float: accepts e or E, an optional sign
and a nonempty digit run, and must consume the whole rest. -/
def parseExpPart : List Char → Option Int
  | [] => some 0
  | e :: rest =>
    if e = 'e' ∨ e = 'E' then
      let (neg, ds) := splitSign rest
      if ds ≠ [] ∧ ds.all isDigitCh then
        some (if neg then -(digitsVal ds : Int) else (digitsVal ds : Int))
      else none
    else none

/-- Mantissa of a decimal float: digits, an optional dot with more
digits, requiring at least one digit overall; returns the numerator,
the number of fraction digits, and whatever follows. -/
def parseMantissa (cs : List Char) : Option (Nat × Nat × List Char) :=
  let ip := cs.takeWhile isDigitCh
  let rest1 := cs.dropWhile isDigitCh
  match rest1 with
  | '.' :: rest2 =>
    let fp := rest2.takeWhile isDigitCh
    let rest3 := rest2.dropWhile isDigitCh
    if ip = [] ∧ fp = [] then none
    else some (digitsVal (ip ++ fp), fp.length, rest3)
  | _ =>
    if ip = [] then none
    else some (digitsVal ip, 0, rest1)

/-- strconv.ParseFloat on the plain-decimal fragment, producing the
exact decimal value of the string (the real function rounds to the
nearest float64; see the header note). -/
def goParseFloat (s : String) : Except String DecFloat :=
  let failure : Except String DecFloat :=
    Except.error ("strconv.ParseFloat: parsing \"" ++ s ++ "\": invalid syntax")
  let (neg, cs) := splitSign s.data
  match parseMantissa cs with
  | none => failure
  | some (m, fdigits, rest) =>
    match parseExpPart rest with
    | none => failure
    | some ex =>
      let sm : Int := if neg then -(m : Int) else (m : Int)
      Except.ok
        (if (fdigits : Int) ≤ ex then canonDF (sm * 10 ^ (ex - fdigits).toNat) 0
         else canonDF sm (fdigits - ex.toNat + (-ex).toNat))

/-- strconv.ParseBool, as in the Go standard library. -/
def goParseBool (s : String) : Except String Bool :=
  if s = "1" ∨ s = "t" ∨ s = "T" ∨ s = "true" ∨ s = "TRUE" ∨ s = "True" then
    Except.ok true
  else if s = "0" ∨ s = "f" ∨ s = "F" ∨ s = "false" ∨ s = "FALSE" ∨ s = "False" then
    Except.ok false
  else
    Except.error ("strconv.ParseBool: parsing \"" ++ s ++ "\": invalid syntax")

/-- Modelled from the spec: stringToBool is called by set for boolean
fields but is defined outside the files under src/. Per the spec,
booleans are rendered internally as the full strings true/false and
travel in URLs as the single characters t/f, which decode back to
true/false; malformed strings are a parse error. -/
def stringToBool (s : String) : Except String Bool :=
  if s = "true" ∨ s = "t" then Except.ok true
  else if s = "false" ∨ s = "f" then Except.ok false
  else Except.error ("illegal value \"" ++ s ++ "\" for bool variable")

/-- fmt.Sprint of a float64 value: the shortest plain decimal form,
which is what the %v verb prints for every value in the non-scientific
regime (see the header note). Since DecFloat is canonical, the digits
of num with a decimal point den10 places from the right are already
shortest. -/
def floatToString (q : DecFloat) : String :=
  if q.num = 0 then "0"
  else
    let sign := if q.num < 0 then "-" else ""
    let n := q.num.natAbs
    if q.den10 = 0 then sign ++ toString n
    else
      let fpStr := toString (n % 10 ^ q.den10)
      let pad := String.mk (List.replicate (q.den10 - fpStr.length) '0') ++ fpStr
      sign ++ toString (n / 10 ^ q.den10) ++ "." ++ pad

example : floatToString ⟨5, 3⟩ = "0.005" := by decide
example : floatToString ⟨1, 3⟩ = "0.001" := by decide
example : floatToString ⟨1, 0⟩ = "1" := by decide
example : floatToString ⟨-15, 1⟩ = "-1.5" := by decide
example : goParseFloat "0.005" = Except.ok ⟨5, 3⟩ := by decide
example : goParseFloat "2.5e1" = Except.ok ⟨25, 0⟩ := by decide
example : goParseFloat "1.0" = Except.ok ⟨1, 0⟩ := by decide
example : goParseFloat "-0.5" = Except.ok ⟨-5, 1⟩ := by decide
example : goParseFloat "bad" = Except.error "strconv.ParseFloat: parsing \"bad\": invalid syntax" := by decide
example : goAtoi "-12" = Except.ok (-12) := by decide
example : goAtoi "bad" = Except.error "strconv.Atoi: parsing \"bad\": invalid syntax" := by decide

/-- get returns the value of field fid in cfg as a string, exactly as
the Go type switch renders it through fmt.Sprint (the Go method takes
the whole configField and reads only its field component). -/
def PprofConfig.get (cfg : PprofConfig) (fid : FieldId) : String :=
  match getVal cfg fid with
  | ConfigValue.vstr s => s
  | ConfigValue.vint i => toString i
  | ConfigValue.vfloat q => floatToString q
  | ConfigValue.vbool b => if b then "true" else "false"

/-- configField contains metadata for a single configuration field. -/
structure ConfigField where
  name : String
  urlparam : String
  saved : Bool
  field : FieldId
  choices : List String
  defaultValue : String
deriving DecidableEq

/-- set sets the value of field f in cfg to value, returning the new
configuration and the error, if any. Mirrors the Go type switch: choice
validation for restricted string fields, strconv.Atoi for int,
strconv.ParseFloat for float64 and stringToBool for bool; every failure
path leaves the configuration untouched. -/
def PprofConfig.set (cfg : PprofConfig) (f : ConfigField) (value : String) :
    PprofConfig × Option String :=
  match fieldKind f.field with
  | FieldKind.kstr =>
    if f.choices ≠ [] then
      if f.choices.contains value then
        (updateField cfg f.field (ConfigValue.vstr value), none)
      else
        (cfg, some ("invalid \"" ++ f.name ++ "\" value \"" ++ value ++ "\""))
    else
      (updateField cfg f.field (ConfigValue.vstr value), none)
  | FieldKind.kint =>
    match goAtoi value with
    | Except.ok v => (updateField cfg f.field (ConfigValue.vint v), none)
    | Except.error e => (cfg, some e)
  | FieldKind.kfloat =>
    match goParseFloat value with
    | Except.ok v => (updateField cfg f.field (ConfigValue.vfloat v), none)
    | Except.error e => (cfg, some e)
  | FieldKind.kbool =>
    match stringToBool value with
    | Except.ok v => (updateField cfg f.field (ConfigValue.vbool v), none)
    | Except.error e => (cfg, some e)

/-!
The registry built once by init(): one descriptor per configurable
field, in struct declaration order. The name comes from the json tag,
or from the notSaved table for the five fields tagged with a dash; the
urlparam comes from the urlparam table (empty string when absent);
saved records whether the json tag carried a real name; choices comes
from the choices table; defaultValue is read from DefaultConfig through
get, exactly as init() does.
-/

def fOutput : ConfigField :=
  { name := "output", urlparam := "", saved := false, field := FieldId.Output,
    choices := [], defaultValue := PprofConfig.get DefaultConfig FieldId.Output }

def fCallTree : ConfigField :=
  { name := "call_tree", urlparam := "calltree", saved := true, field := FieldId.CallTree,
    choices := [], defaultValue := PprofConfig.get DefaultConfig FieldId.CallTree }

def fRelativePercentages : ConfigField :=
  { name := "relative_percentages", urlparam := "rel", saved := true,
    field := FieldId.RelativePercentages, choices := [],
    defaultValue := PprofConfig.get DefaultConfig FieldId.RelativePercentages }

def fUnit : ConfigField :=
  { name := "unit", urlparam := "unit", saved := true, field := FieldId.Unit,
    choices := [], defaultValue := PprofConfig.get DefaultConfig FieldId.Unit }

def fCompactLabels : ConfigField :=
  { name := "compact_labels", urlparam := "compact", saved := true,
    field := FieldId.CompactLabels, choices := [],
    defaultValue := PprofConfig.get DefaultConfig FieldId.CompactLabels }

def fSourcePath : ConfigField :=
  { name := "source_path", urlparam := "", saved := false, field := FieldId.SourcePath,
    choices := [], defaultValue := PprofConfig.get DefaultConfig FieldId.SourcePath }

def fTrimPath : ConfigField :=
  { name := "trim_path", urlparam := "", saved := false, field := FieldId.TrimPath,
    choices := [], defaultValue := PprofConfig.get DefaultConfig FieldId.TrimPath }

def fIntel : ConfigField :=
  { name := "intel_syntax", urlparam := "intel", saved := true, field := FieldId.Intel,
    choices := [], defaultValue := PprofConfig.get DefaultConfig FieldId.Intel }

def fMean : ConfigField :=
  { name := "mean", urlparam := "mean", saved := true, field := FieldId.Mean,
    choices := [], defaultValue := PprofConfig.get DefaultConfig FieldId.Mean }

def fSampleIndex : ConfigField :=
  { name := "sample_index", urlparam := "si", saved := false, field := FieldId.SampleIndex,
    choices := [], defaultValue := PprofConfig.get DefaultConfig FieldId.SampleIndex }

def fDivideBy : ConfigField :=
  { name := "divide_by", urlparam := "", saved := false, field := FieldId.DivideBy,
    choices := [], defaultValue := PprofConfig.get DefaultConfig FieldId.DivideBy }

def fNormalize : ConfigField :=
  { name := "normalize", urlparam := "norm", saved := true, field := FieldId.Normalize,
    choices := [], defaultValue := PprofConfig.get DefaultConfig FieldId.Normalize }

def fSort : ConfigField :=
  { name := "sort", urlparam := "sort", saved := true, field := FieldId.SortOrder,
    choices := ["cum", "flat"],
    defaultValue := PprofConfig.get DefaultConfig FieldId.SortOrder }

def fDropNegative : ConfigField :=
  { name := "drop_negative", urlparam := "dropneg", saved := true,
    field := FieldId.DropNegative, choices := [],
    defaultValue := PprofConfig.get DefaultConfig FieldId.DropNegative }

def fNodeCount : ConfigField :=
  { name := "nodecount", urlparam := "n", saved := true, field := FieldId.NodeCount,
    choices := [], defaultValue := PprofConfig.get DefaultConfig FieldId.NodeCount }

def fNodeFraction : ConfigField :=
  { name := "nodefraction", urlparam := "nf", saved := true, field := FieldId.NodeFraction,
    choices := [], defaultValue := PprofConfig.get DefaultConfig FieldId.NodeFraction }

def fEdgeFraction : ConfigField :=
  { name := "edgefraction", urlparam := "ef", saved := true, field := FieldId.EdgeFraction,
    choices := [], defaultValue := PprofConfig.get DefaultConfig FieldId.EdgeFraction }

def fTrim : ConfigField :=
  { name := "trim", urlparam := "trim", saved := true, field := FieldId.Trim,
    choices := [], defaultValue := PprofConfig.get DefaultConfig FieldId.Trim }

def fFocus : ConfigField :=
  { name := "focus", urlparam := "f", saved := true, field := FieldId.Focus,
    choices := [], defaultValue := PprofConfig.get DefaultConfig FieldId.Focus }

def fIgnore : ConfigField :=
  { name := "ignore", urlparam := "i", saved := true, field := FieldId.Ignore,
    choices := [], defaultValue := PprofConfig.get DefaultConfig FieldId.Ignore }

def fPruneFrom : ConfigField :=
  { name := "prune_from", urlparam := "prunefrom", saved := true, field := FieldId.PruneFrom,
    choices := [], defaultValue := PprofConfig.get DefaultConfig FieldId.PruneFrom }

def fHide : ConfigField :=
  { name := "hide", urlparam := "h", saved := true, field := FieldId.Hide,
    choices := [], defaultValue := PprofConfig.get DefaultConfig FieldId.Hide }

def fShow : ConfigField :=
  { name := "show", urlparam := "s", saved := true, field := FieldId.Show,
    choices := [], defaultValue := PprofConfig.get DefaultConfig FieldId.Show }

def fShowFrom : ConfigField :=
  { name := "show_from", urlparam := "sf", saved := true, field := FieldId.ShowFrom,
    choices := [], defaultValue := PprofConfig.get DefaultConfig FieldId.ShowFrom }

def fTagFocus : ConfigField :=
  { name := "tagfocus", urlparam := "tf", saved := true, field := FieldId.TagFocus,
    choices := [], defaultValue := PprofConfig.get DefaultConfig FieldId.TagFocus }

def fTagIgnore : ConfigField :=
  { name := "tagignore", urlparam := "ti", saved := true, field := FieldId.TagIgnore,
    choices := [], defaultValue := PprofConfig.get DefaultConfig FieldId.TagIgnore }

def fTagShow : ConfigField :=
  { name := "tagshow", urlparam := "ts", saved := true, field := FieldId.TagShow,
    choices := [], defaultValue := PprofConfig.get DefaultConfig FieldId.TagShow }

def fTagHide : ConfigField :=
  { name := "taghide", urlparam := "th", saved := true, field := FieldId.TagHide,
    choices := [], defaultValue := PprofConfig.get DefaultConfig FieldId.TagHide }

def fNoInlines : ConfigField :=
  { name := "noinlines", urlparam := "noinlines", saved := true, field := FieldId.NoInlines,
    choices := [], defaultValue := PprofConfig.get DefaultConfig FieldId.NoInlines }

def fGranularity : ConfigField :=
  { name := "granularity", urlparam := "g", saved := true, field := FieldId.Granularity,
    choices := ["functions", "filefunctions", "files", "lines", "addresses"],
    defaultValue := PprofConfig.get DefaultConfig FieldId.Granularity }

/-- Precomputed metadata per PprofConfig field, in the fixed order
init() produces (struct declaration order). -/
def configFields : List ConfigField :=
  [fOutput, fCallTree, fRelativePercentages, fUnit, fCompactLabels,
   fSourcePath, fTrimPath, fIntel, fMean, fSampleIndex, fDivideBy,
   fNormalize, fSort, fDropNegative, fNodeCount, fNodeFraction,
   fEdgeFraction, fTrim, fFocus, fIgnore, fPruneFrom, fHide, fShow,
   fShowFrom, fTagFocus, fTagIgnore, fTagShow, fTagHide, fNoInlines,
   fGranularity]

/-- Lookup in the map holding an entry for every field name and for
every valid choice of a multi-choice field. Names and choices are
pairwise distinct, so first match equals map lookup. -/
def configFieldMap (s : String) : Option ConfigField :=
  configFields.find? (fun f => f.name == s || f.choices.contains s)

/-- url.Values as an association list of key-value pairs (see the
header note). -/
abbrev Values : Type := List (String × String)

/-- Values.Get: the value of the first entry for the key, or the empty
string when the key is absent. -/
def valuesGet : Values → String → String
  | [], _ => ""
  | (k0, v0) :: rest, k => if k0 = k then v0 else valuesGet rest k

/-- Values.Del: removes every entry for the key. -/
def valuesDel : Values → String → Values
  | [], _ => []
  | (k0, v0) :: rest, k =>
    if k0 = k then valuesDel rest k else (k0, v0) :: valuesDel rest k

/-- Values.Set: the key maps to exactly this one value afterwards. -/
def valuesSet (q : Values) (k v : String) : Values :=
  valuesDel q k ++ [(k, v)]

/-- url.URL restricted to the only component this module touches: the
query (RawQuery, held in parsed form; see the header note). -/
structure URL where
  query : Values
deriving DecidableEq

/-- The local value variable of the applyURL loop: the URL parameter
value when the field has a URL parameter, the empty string otherwise. -/
def paramValue (f : ConfigField) (params : Values) : String :=
  if f.urlparam ≠ "" then valuesGet params f.urlparam else ""

/-- applyURL updates cfg based on params: for each registry field with
a URL parameter whose value in params is nonempty, assign it via set;
stop at the first error, wrapped with the field name. Returns the
configuration as mutated so far together with the optional error. -/
def applyURLAux (cfg : PprofConfig) : List ConfigField → Values → PprofConfig × Option String
  | [], _ => (cfg, none)
  | f :: rest, params =>
    if paramValue f params = "" then applyURLAux cfg rest params
    else
      match PprofConfig.set cfg f (paramValue f params) with
      | (c, none) => applyURLAux c rest params
      | (c, some e) =>
        (c, some ("error setting PprofConfig field " ++ f.name ++ ": " ++ e))

def applyURL (cfg : PprofConfig) (params : Values) : PprofConfig × Option String :=
  applyURLAux cfg configFields params

/-- The URL form of one field value inside the makeURL loop: empty for
the default value, first byte for booleans. -/
def encodeField (cfg : PprofConfig) (f : ConfigField) : String :=
  let v := PprofConfig.get cfg f.field
  if v = f.defaultValue then ""
  else if fieldKind f.field = FieldKind.kbool then String.mk (v.data.take 1)
  else v

/-- The loop of makeURL: walks the registry threading the query and the
changed flag; a field is skipped when it has no URL parameter or is not
saved, or when its encoded value already equals the current parameter
value; otherwise the parameter is deleted (empty encoding) or set. -/
def makeURLAux (cfg : PprofConfig) : List ConfigField → Values → Bool → Values × Bool
  | [], q, changed => (q, changed)
  | f :: rest, q, changed =>
    if f.urlparam = "" ∨ f.saved = false then makeURLAux cfg rest q changed
    else
      let v := encodeField cfg f
      if valuesGet q f.urlparam = v then makeURLAux cfg rest q changed
      else
        makeURLAux cfg rest (if v = "" then valuesDel q f.urlparam else valuesSet q f.urlparam v) true

/-- makeURL returns a URL based on initialURL that contains the
PprofConfig contents as parameters. The second result is true iff a
parameter value was changed. -/
def makeURL (cfg : PprofConfig) (initialURL : URL) : URL × Bool :=
  let r := makeURLAux cfg configFields initialURL.query false
  (if r.2 then { initialURL with query := r.1 } else initialURL, r.2)

/-- configure stores the name=value mapping into the configuration,
correctly handling the case when name identifies a particular choice in
a field. The Go function works on the mutex-guarded current
configuration; the shared state is an explicit argument here. -/
def configure (cfg : PprofConfig) (name value : String) : PprofConfig × Option String :=
  match configFieldMap name with
  | none => (cfg, some ("unknown PprofConfig field \"" ++ name ++ "\""))
  | some f =>
    if f.name = name then PprofConfig.set cfg f value
    else
      match goParseBool value with
      | Except.ok true => PprofConfig.set cfg f name
      | _ => (cfg, some ("unknown PprofConfig field \"" ++ name ++ "\""))

/-- isBoolConfig returns true if name is either the name of a boolean
PprofConfig field, or a valid value for a multi-choice PprofConfig
field (the Go code asks whether the field pointer is a bool pointer;
the kind table answers the same question). -/
def isBoolConfig (name : String) : Bool :=
  match configFieldMap name with
  | none => false
  | some f =>
    if name ≠ f.name then true
    else fieldKind f.field = FieldKind.kbool

/-- resetTransient sets all transient fields in cfg to their values in
the current configuration (the Go method reads the mutex-guarded
current configuration; it is an explicit argument here). -/
def resetTransient (current cfg : PprofConfig) : PprofConfig :=
  { cfg with
    Output := current.Output
    SourcePath := current.SourcePath
    TrimPath := current.TrimPath
    DivideBy := current.DivideBy
    SampleIndex := current.SampleIndex }

/-- namedConfig associates a name with a PprofConfig. -/
structure NamedConfig where
  name : String
  config : PprofConfig
deriving DecidableEq

/-- settings holds pprof settings: the list of named UI configurations. -/
structure Settings where
  configs : List NamedConfig
deriving DecidableEq

/-- The outcome of json.Unmarshal on the bytes of the settings file:
either the decoded settings or a parse error (the JSON grammar itself
is outside this model; see the header note). -/
inductive SettingsData where
  | wellFormed (s : Settings)
  | malformed (msg : String)

/-- The outcome of ioutil.ReadFile on the settings file: the file does
not exist, reading failed some other way, or contents were read. -/
inductive ReadFileResult where
  | notExist
  | ioError (msg : String)
  | content (data : SettingsData)

/-- readSettings reads settings from the file: a missing file is empty
settings; any other read failure and any parse failure is an error; on
success every stored configuration gets its transient fields reset from
the current configuration. -/
def readSettings (current : PprofConfig) (file : ReadFileResult) : Except String Settings :=
  match file with
  | ReadFileResult.notExist => Except.ok ⟨[]⟩
  | ReadFileResult.ioError m => Except.error ("could not read settings: " ++ m)
  | ReadFileResult.content (SettingsData.malformed m) =>
    Except.error ("could not parse settings: " ++ m)
  | ReadFileResult.content (SettingsData.wellFormed s) =>
    Except.ok ⟨s.configs.map (fun nc => { nc with config := resetTransient current nc.config })⟩

/-- writeSettings saves settings to the file. Its three effects are
modelled by their outcomes: the json.MarshalIndent result, and the
optional errors of os.MkdirAll and ioutil.WriteFile. Every failure is
returned as an error. -/
def writeSettings (marshal : Except String String) (mkdir wr : Option String) : Option String :=
  match marshal with
  | Except.error e => some ("could not encode settings: " ++ e)
  | Except.ok _ =>
    match mkdir with
    | some e => some ("failed to create settings directory: " ++ e)
    | none =>
      match wr with
      | some e => some ("failed to write settings: " ++ e)
      | none => none

/-! Helper lemmas about field updates and the association-list query. -/

theorem updateField_getVal_ne (cfg : PprofConfig) (fid : FieldId) (v : ConfigValue)
    (g : FieldId) (h : g ≠ fid) : getVal (updateField cfg fid v) g = getVal cfg g := by
  cases fid <;> cases v <;> first
    | rfl
    | (cases g <;> first | rfl | exact absurd rfl h)

theorem set_fst_getVal_ne (cfg : PprofConfig) (f : ConfigField) (v : String)
    (g : FieldId) (h : g ≠ f.field) :
    getVal (PprofConfig.set cfg f v).1 g = getVal cfg g := by
  unfold PprofConfig.set
  split
  · split
    · split
      · exact updateField_getVal_ne cfg f.field _ g h
      · rfl
    · exact updateField_getVal_ne cfg f.field _ g h
  · split
    · exact updateField_getVal_ne cfg f.field _ g h
    · rfl
  · split
    · exact updateField_getVal_ne cfg f.field _ g h
    · rfl
  · split
    · exact updateField_getVal_ne cfg f.field _ g h
    · rfl

theorem set_fail_fst (cfg : PprofConfig) (f : ConfigField) (v : String) (e : String) :
    (PprofConfig.set cfg f v).2 = some e → (PprofConfig.set cfg f v).1 = cfg := by
  unfold PprofConfig.set
  split
  · split
    · split
      · intro h; simp at h
      · intro h; rfl
    · intro h; simp at h
  · split
    · intro h; simp at h
    · intro h; rfl
  · split
    · intro h; simp at h
    · intro h; rfl
  · split
    · intro h; simp at h
    · intro h; rfl

theorem valuesGet_del_self (q : Values) (k : String) : valuesGet (valuesDel q k) k = "" := by
  induction q with
  | nil => rfl
  | cons p rest ih =>
    by_cases h : p.1 = k
    · simpa [valuesDel, h] using ih
    · simpa [valuesDel, valuesGet, h] using ih

theorem valuesGet_del_ne (q : Values) (k k' : String) (h : k' ≠ k) :
    valuesGet (valuesDel q k') k = valuesGet q k := by
  induction q with
  | nil => rfl
  | cons p rest ih =>
    by_cases hp : p.1 = k'
    · simp [valuesDel, valuesGet, hp, ih, h]
    · by_cases hk : p.1 = k
      · simp [valuesDel, valuesGet, hp, hk, Ne.symm h]
      · simp [valuesDel, valuesGet, hp, hk, ih]

theorem valuesGet_set_self (q : Values) (k v : String) : valuesGet (valuesSet q k v) k = v := by
  unfold valuesSet
  induction q with
  | nil => simp [valuesGet]
  | cons p rest ih =>
    by_cases hp : p.1 = k
    · simpa [valuesDel, hp] using ih
    · simpa [valuesDel, valuesGet, hp] using ih

theorem valuesGet_set_ne (q : Values) (k k' v : String) (h : k' ≠ k) :
    valuesGet (valuesSet q k' v) k = valuesGet q k := by
  unfold valuesSet
  induction q with
  | nil => simp [valuesGet, h]
  | cons p rest ih =>
    by_cases hp : p.1 = k'
    · simp [valuesDel, valuesGet, hp, ih, h]
    · by_cases hk : p.1 = k
      · simp [valuesDel, valuesGet, hp, hk, Ne.symm h]
      · simp [valuesDel, valuesGet, hp, hk, ih]

/-! Lemmas about the decode loop. -/

theorem applyURLAux_empty (params : Values) :
    ∀ (fields : List ConfigField) (cfg : PprofConfig),
      (∀ f ∈ fields, f.urlparam ≠ "" → valuesGet params f.urlparam = "") →
      applyURLAux cfg fields params = (cfg, none) := by
  intro fields
  induction fields with
  | nil => intro cfg h; rfl
  | cons f rest ih =>
    intro cfg h
    have hv : paramValue f params = "" := by
      unfold paramValue
      by_cases hu : f.urlparam = ""
      · simp [hu]
      · simp [hu, h f (List.mem_cons_self f rest) hu]
    simp only [applyURLAux, hv, if_pos]
    exact ih cfg (fun g hg => h g (List.mem_cons_of_mem f hg))

theorem applyURLAux_append_ok (rest : List ConfigField) (params : Values) :
    ∀ (pre : List ConfigField) (cfg c : PprofConfig),
      applyURLAux cfg pre params = (c, none) →
      applyURLAux cfg (pre ++ rest) params = applyURLAux c rest params := by
  intro pre
  induction pre with
  | nil =>
    intro cfg c h
    simp only [applyURLAux, Prod.mk.injEq] at h
    rw [List.nil_append, h.1]
  | cons f pre ih =>
    intro cfg c h
    simp only [applyURLAux, List.cons_append] at h ⊢
    by_cases hv : paramValue f params = ""
    · rw [if_pos hv] at h ⊢
      exact ih cfg c h
    · rw [if_neg hv] at h ⊢
      rcases hset : PprofConfig.set cfg f (paramValue f params) with ⟨c1, err⟩
      rw [hset] at h
      cases err with
      | none => exact ih c1 c h
      | some e => simp at h

theorem applyURLAux_getVal (g : FieldId) (params : Values) :
    ∀ (fields : List ConfigField) (cfg : PprofConfig),
      (∀ f ∈ fields, f.field = g → paramValue f params = "") →
      getVal (applyURLAux cfg fields params).1 g = getVal cfg g := by
  intro fields
  induction fields with
  | nil => intro cfg h; rfl
  | cons f rest ih =>
    intro cfg h
    simp only [applyURLAux]
    by_cases hv : paramValue f params = ""
    · rw [if_pos hv]
      exact ih cfg (fun g' hg' => h g' (List.mem_cons_of_mem f hg'))
    · rw [if_neg hv]
      have hfg : g ≠ f.field := by
        intro hq
        exact hv (h f (List.mem_cons_self f rest) hq.symm)
      have hpres := set_fst_getVal_ne cfg f (paramValue f params) g hfg
      rcases hset : PprofConfig.set cfg f (paramValue f params) with ⟨c1, err⟩
      rw [hset] at hpres
      cases err with
      | none =>
        rw [ih c1 (fun g' hg' => h g' (List.mem_cons_of_mem f hg'))]
        exact hpres
      | some e => exact hpres

/-! Lemmas about the encode loop. -/

theorem makeURLAux_skip (cfg : PprofConfig) :
    ∀ (fields : List ConfigField) (q : Values) (changed : Bool),
      (∀ f ∈ fields, f.saved = true → f.urlparam ≠ "" →
        valuesGet q f.urlparam = encodeField cfg f) →
      makeURLAux cfg fields q changed = (q, changed) := by
  intro fields
  induction fields with
  | nil => intro q changed h; rfl
  | cons f rest ih =>
    intro q changed h
    simp only [makeURLAux]
    by_cases hskip : f.urlparam = "" ∨ f.saved = false
    · rw [if_pos hskip]
      exact ih q changed (fun g hg => h g (List.mem_cons_of_mem f hg))
    · push_neg at hskip
      have hmatch : valuesGet q f.urlparam = encodeField cfg f :=
        h f (List.mem_cons_self f rest)
          (by simpa using hskip.2) hskip.1
      rw [if_neg (by push_neg; exact hskip), if_pos hmatch]
      exact ih q changed (fun g hg => h g (List.mem_cons_of_mem f hg))

theorem makeURLAux_true (cfg : PprofConfig) :
    ∀ (fields : List ConfigField) (q : Values),
      (makeURLAux cfg fields q true).2 = true := by
  intro fields
  induction fields with
  | nil => intro q; rfl
  | cons f rest ih =>
    intro q
    simp only [makeURLAux]
    by_cases hskip : f.urlparam = "" ∨ f.saved = false
    · rw [if_pos hskip]; exact ih q
    · rw [if_neg hskip]
      by_cases hmatch : valuesGet q f.urlparam = encodeField cfg f
      · rw [if_pos hmatch]; exact ih q
      · rw [if_neg hmatch]; exact ih _

theorem makeURLAux_get_preserved (cfg : PprofConfig) (p : String) :
    ∀ (fields : List ConfigField) (q : Values) (changed : Bool),
      (∀ f ∈ fields, f.urlparam = "" ∨ f.urlparam ≠ p) →
      valuesGet (makeURLAux cfg fields q changed).1 p = valuesGet q p := by
  intro fields
  induction fields with
  | nil => intro q changed h; rfl
  | cons f rest ih =>
    intro q changed h
    simp only [makeURLAux]
    by_cases hskip : f.urlparam = "" ∨ f.saved = false
    · rw [if_pos hskip]
      exact ih q changed (fun g hg => h g (List.mem_cons_of_mem f hg))
    · rw [if_neg hskip]
      push_neg at hskip
      have hne : f.urlparam ≠ p := by
        rcases h f (List.mem_cons_self f rest) with hc | hc
        · exact absurd hc hskip.1
        · exact hc
      by_cases hmatch : valuesGet q f.urlparam = encodeField cfg f
      · rw [if_pos hmatch]
        exact ih q changed (fun g hg => h g (List.mem_cons_of_mem f hg))
      · rw [if_neg hmatch]
        rw [ih _ true (fun g hg => h g (List.mem_cons_of_mem f hg))]
        by_cases henc : encodeField cfg f = ""
        · rw [if_pos henc]
          exact valuesGet_del_ne q p f.urlparam hne
        · rw [if_neg henc]
          exact valuesGet_set_ne q p f.urlparam (encodeField cfg f) hne

theorem makeURLAux_post (cfg : PprofConfig) :
    ∀ (fields : List ConfigField) (q : Values) (changed : Bool),
      List.Pairwise (fun a b => a.urlparam = "" ∨ a.urlparam ≠ b.urlparam) fields →
      ∀ f ∈ fields, f.saved = true → f.urlparam ≠ "" →
        valuesGet (makeURLAux cfg fields q changed).1 f.urlparam = encodeField cfg f := by
  intro fields
  induction fields with
  | nil => intro q changed hp f hf; cases hf
  | cons g rest ih =>
    intro q changed hp f hf hs hu
    have hg := (List.pairwise_cons.mp hp).1
    have hrest := (List.pairwise_cons.mp hp).2
    simp only [makeURLAux]
    rcases List.mem_cons.mp hf with rfl | hfr
    · rw [if_neg (by push_neg; exact ⟨hu, by simp [hs]⟩)]
      have hlater : ∀ b ∈ rest, b.urlparam = "" ∨ b.urlparam ≠ f.urlparam := by
        intro b hb
        rcases hg b hb with hc | hc
        · exact absurd hc hu
        · exact Or.inr (fun hb' => hc (hb'.symm))
      by_cases hmatch : valuesGet q f.urlparam = encodeField cfg f
      · rw [if_pos hmatch]
        rw [makeURLAux_get_preserved cfg f.urlparam rest q changed hlater]
        exact hmatch
      · rw [if_neg hmatch]
        rw [makeURLAux_get_preserved cfg f.urlparam rest _ true hlater]
        by_cases henc : encodeField cfg f = ""
        · rw [if_pos henc, henc]
          exact valuesGet_del_self q f.urlparam
        · rw [if_neg henc]
          exact valuesGet_set_self q f.urlparam (encodeField cfg f)
    · by_cases hskip : g.urlparam = "" ∨ g.saved = false
      · rw [if_pos hskip]
        exact ih q changed hrest f hfr hs hu
      · rw [if_neg hskip]
        by_cases hmatch : valuesGet q g.urlparam = encodeField cfg g
        · rw [if_pos hmatch]
          exact ih q changed hrest f hfr hs hu
        · rw [if_neg hmatch]
          exact ih _ true hrest f hfr hs hu

theorem makeURLAux_false (cfg : PprofConfig) :
    ∀ (fields : List ConfigField) (q : Values),
      (makeURLAux cfg fields q false).2 = false →
      makeURLAux cfg fields q false = (q, false) ∧
        ∀ f ∈ fields, f.saved = true → f.urlparam ≠ "" →
          valuesGet q f.urlparam = encodeField cfg f := by
  intro fields
  induction fields with
  | nil =>
    intro q h
    exact ⟨rfl, by intro f hf; cases hf⟩
  | cons f rest ih =>
    intro q h
    simp only [makeURLAux] at h ⊢
    by_cases hskip : f.urlparam = "" ∨ f.saved = false
    · rw [if_pos hskip] at h ⊢
      obtain ⟨he, hall⟩ := ih q h
      refine ⟨he, ?_⟩
      intro g hg hs hu
      rcases List.mem_cons.mp hg with rfl | hgr
      · rcases hskip with hc | hc
        · exact absurd hc hu
        · rw [hs] at hc; cases hc
      · exact hall g hgr hs hu
    · rw [if_neg hskip] at h ⊢
      by_cases hmatch : valuesGet q f.urlparam = encodeField cfg f
      · rw [if_pos hmatch] at h ⊢
        obtain ⟨he, hall⟩ := ih q h
        refine ⟨he, ?_⟩
        intro g hg hs hu
        rcases List.mem_cons.mp hg with rfl | hgr
        · exact hmatch
        · exact hall g hgr hs hu
      · rw [if_neg hmatch] at h
        rw [makeURLAux_true cfg rest _] at h
        cases h

theorem encodeField_congr (cfg1 cfg2 : PprofConfig) (f : ConfigField)
    (h : PprofConfig.get cfg1 f.field = PprofConfig.get cfg2 f.field) :
    encodeField cfg1 f = encodeField cfg2 f := by
  unfold encodeField
  rw [h]

theorem makeURLAux_congr (cfg1 cfg2 : PprofConfig) :
    ∀ (fields : List ConfigField) (q : Values) (changed : Bool),
      (∀ f ∈ fields, f.saved = true → f.urlparam ≠ "" →
        PprofConfig.get cfg1 f.field = PprofConfig.get cfg2 f.field) →
      makeURLAux cfg1 fields q changed = makeURLAux cfg2 fields q changed := by
  intro fields
  induction fields with
  | nil => intro q changed h; rfl
  | cons f rest ih =>
    intro q changed h
    have hrest := fun g hg => h g (List.mem_cons_of_mem f hg)
    simp only [makeURLAux]
    apply if_ctx_congr Iff.rfl
    · intro _
      exact ih q changed hrest
    · intro hns
      push_neg at hns
      have henc : encodeField cfg1 f = encodeField cfg2 f :=
        encodeField_congr cfg1 cfg2 f
          (h f (List.mem_cons_self f rest) (by simpa using hns.2) hns.1)
      rw [henc]
      apply if_ctx_congr Iff.rfl
      · intro _
        exact ih q changed hrest
      · intro _
        exact ih _ true hrest

theorem getVal_bool (cfg : PprofConfig) (fid : FieldId)
    (h : fieldKind fid = FieldKind.kbool) :
    getVal cfg fid = ConfigValue.vbool
      (match getVal cfg fid with
       | ConfigValue.vbool b => b
       | _ => false) := by
  cases fid <;> first
    | rfl
    | (exfalso; simp [fieldKind] at h)

/-! The claims. -/

/-- C1 counterexample: after decoding n=-1 (so node count is the
default -1), encoding against the original URL still containing n=-1
reports changed=true (the default-valued parameter is deleted), not
changed=false as claimed. -/
theorem claim_c1_counterexample :
    applyURL DefaultConfig [("n", "-1")] = (DefaultConfig, none) ∧
    (makeURL DefaultConfig ⟨[("n", "-1")]⟩).2 = true := by
  exact ⟨by decide, by decide⟩

/-- C1 (amended): decoding n=5 sets node count 5, and encoding that
configuration against a URL with no n parameter yields n=5 with
changed=true; decoding n=-1 sets node count to the default -1, and
encoding that configuration against the original URL still containing
n=-1 deletes the parameter and reports changed=true. -/
theorem claim_c1 :
    applyURL DefaultConfig [("n", "5")] = ({ DefaultConfig with NodeCount := 5 }, none)
    ∧ makeURL { DefaultConfig with NodeCount := 5 } ⟨[]⟩ = (⟨[("n", "5")]⟩, true)
    ∧ applyURL DefaultConfig [("n", "-1")] = (DefaultConfig, none)
    ∧ makeURL DefaultConfig ⟨[("n", "-1")]⟩ = (⟨[]⟩, true) := by
  exact ⟨by decide, by decide, by decide, by decide⟩

/-- C2 counterexample: in a configuration whose only change from the
defaults is node count 5, the persisted URL-mapped field unit is at its
default value, yet encoding reports changed=true, refuting the claim
that the encode reports changed=false whenever some persisted field is
at its default. -/
theorem claim_c2_counterexample :
    fUnit ∈ configFields ∧ fUnit.saved = true ∧ fUnit.urlparam ≠ "" ∧
    PprofConfig.get { DefaultConfig with NodeCount := 5 } fUnit.field = fUnit.defaultValue ∧
    (makeURL { DefaultConfig with NodeCount := 5 } ⟨[]⟩).2 = true := by
  exact ⟨by decide, by decide, by decide, by decide, by decide⟩

/-- C2 (amended): when every persisted URL-mapped field of the
configuration is at its default value and the URL carries none of the
registry parameters, encodeToURL is a no-op (changed=false, URL
returned unmodified) and decodeFromURL of that URL leaves the whole
configuration unchanged. -/
theorem claim_c2 (cfg : PprofConfig) (u : URL)
    (h : ∀ f ∈ configFields, f.urlparam ≠ "" →
      valuesGet u.query f.urlparam = "" ∧
        (f.saved = true → PprofConfig.get cfg f.field = f.defaultValue)) :
    makeURL cfg u = (u, false) ∧ applyURL cfg u.query = (cfg, none) := by
  constructor
  · have hskip : ∀ f ∈ configFields, f.saved = true → f.urlparam ≠ "" →
        valuesGet u.query f.urlparam = encodeField cfg f := by
      intro f hf hs hu
      have hx := h f hf hu
      have henc : encodeField cfg f = "" := by
        unfold encodeField
        rw [hx.2 hs]
        simp
      rw [henc]
      exact hx.1
    simp only [makeURL]
    rw [makeURLAux_skip cfg configFields u.query false hskip]
    simp
  · exact applyURLAux_empty u.query configFields cfg (fun f hf hu => (h f hf hu).1)

/-- C2 witness: the default configuration against the empty URL. -/
theorem claim_c2_witness :
    makeURL DefaultConfig ⟨[]⟩ = (⟨[]⟩, false) ∧
    applyURL DefaultConfig [] = (DefaultConfig, none) :=
  claim_c2 DefaultConfig ⟨[]⟩ (by decide)

/-- C9 counterexample: a settings file whose contents fail to parse is
a hard read error, not an empty settings value, and so is a read
failure other than non-existence; this refutes the claim that every
read failure is treated as no settings. -/
theorem claim_c9_counterexample :
    readSettings DefaultConfig
        (ReadFileResult.content (SettingsData.malformed "unexpected end of JSON input"))
      = Except.error "could not parse settings: unexpected end of JSON input" ∧
    readSettings DefaultConfig (ReadFileResult.ioError "permission denied")
      = Except.error "could not read settings: permission denied" :=
  ⟨rfl, rfl⟩

/-- C9 (amended): only a missing settings file is treated as no
settings (empty settings, no error); any other read failure and any
parse failure is returned as an error, a successful read resets the
transient fields of every stored configuration from the current one,
and every write failure (encoding, directory creation, file write) is
a hard failure. -/
theorem claim_c9 (cur : PprofConfig) (m d : String) (s : Settings) (mk wr : Option String) :
    readSettings cur ReadFileResult.notExist = Except.ok ⟨[]⟩
    ∧ readSettings cur (ReadFileResult.ioError m) = Except.error ("could not read settings: " ++ m)
    ∧ readSettings cur (ReadFileResult.content (SettingsData.malformed m))
        = Except.error ("could not parse settings: " ++ m)
    ∧ readSettings cur (ReadFileResult.content (SettingsData.wellFormed s))
        = Except.ok ⟨s.configs.map (fun nc => { nc with config := resetTransient cur nc.config })⟩
    ∧ writeSettings (Except.error m) mk wr = some ("could not encode settings: " ++ m)
    ∧ writeSettings (Except.ok d) (some m) wr = some ("failed to create settings directory: " ++ m)
    ∧ writeSettings (Except.ok d) none (some m) = some ("failed to write settings: " ++ m) :=
  ⟨rfl, rfl, rfl, rfl, rfl, rfl, rfl⟩

/-- C3 counterexample: the transient sample index selector has URL
parameter si and decodeFromURL does read it: decoding si=0 changes the
field, refuting the claim that no transient field is ever read from a
URL. -/
theorem claim_c3_counterexample :
    fSampleIndex ∈ configFields ∧ fSampleIndex.urlparam = "si" ∧
    fSampleIndex.saved = false ∧ DefaultConfig.SampleIndex = "" ∧
    applyURL DefaultConfig [("si", "0")] = ({ DefaultConfig with SampleIndex := "0" }, none) := by
  exact ⟨by decide, by decide, by decide, by decide, by decide⟩

/-- C3 (amended): encodeToURL never reads any transient field (its
result is unchanged under arbitrary transient values), and it skips
every field with no URL parameter or not flagged as persisted (no
persisted URL-mapped registry entry is a transient field); decodeFromURL
never touches the four transient fields without a URL parameter (output,
source path, trim path, divisor), but it does read the transient sample
index selector from parameter si: the field is only left alone when si
is absent or empty. -/
theorem claim_c3 (cfg : PprofConfig) (u : URL) (params : Values)
    (out sp tp si : String) (db : DecFloat) :
    makeURL { cfg with Output := out, SourcePath := sp, TrimPath := tp,
                       DivideBy := db, SampleIndex := si } u = makeURL cfg u
    ∧ (applyURL cfg params).1.Output = cfg.Output
    ∧ (applyURL cfg params).1.SourcePath = cfg.SourcePath
    ∧ (applyURL cfg params).1.TrimPath = cfg.TrimPath
    ∧ (applyURL cfg params).1.DivideBy = cfg.DivideBy
    ∧ (valuesGet params "si" = "" → (applyURL cfg params).1.SampleIndex = cfg.SampleIndex)
    ∧ (∀ f ∈ configFields, f.saved = true → f.urlparam ≠ "" →
        f.field ≠ FieldId.Output ∧ f.field ≠ FieldId.SourcePath ∧
        f.field ≠ FieldId.TrimPath ∧ f.field ≠ FieldId.DivideBy ∧
        f.field ≠ FieldId.SampleIndex)
    ∧ applyURL DefaultConfig [("si", "0")] = ({ DefaultConfig with SampleIndex := "0" }, none) := by
  refine ⟨?_, ?_, ?_, ?_, ?_, ?_, by decide, by decide⟩
  · have hcong : ∀ f ∈ configFields, f.saved = true → f.urlparam ≠ "" →
        PprofConfig.get { cfg with Output := out, SourcePath := sp, TrimPath := tp,
                                   DivideBy := db, SampleIndex := si } f.field
          = PprofConfig.get cfg f.field := by
      intro f hf
      fin_cases hf <;> intro hs hu <;>
        first
          | rfl
          | exact absurd hs (by decide)
    simp only [makeURL]
    rw [makeURLAux_congr _ cfg configFields u.query false hcong]
  · have h1 := applyURLAux_getVal FieldId.Output params configFields cfg
      (by intro f hf hfld; fin_cases hf <;> first | rfl | exact absurd hfld (by decide))
    simp only [getVal, ConfigValue.vstr.injEq] at h1
    exact h1
  · have h1 := applyURLAux_getVal FieldId.SourcePath params configFields cfg
      (by intro f hf hfld; fin_cases hf <;> first | rfl | exact absurd hfld (by decide))
    simp only [getVal, ConfigValue.vstr.injEq] at h1
    exact h1
  · have h1 := applyURLAux_getVal FieldId.TrimPath params configFields cfg
      (by intro f hf hfld; fin_cases hf <;> first | rfl | exact absurd hfld (by decide))
    simp only [getVal, ConfigValue.vstr.injEq] at h1
    exact h1
  · have h1 := applyURLAux_getVal FieldId.DivideBy params configFields cfg
      (by intro f hf hfld; fin_cases hf <;> first | rfl | exact absurd hfld (by decide))
    simp only [getVal, ConfigValue.vfloat.injEq] at h1
    exact h1
  · intro hsi
    have h1 := applyURLAux_getVal FieldId.SampleIndex params configFields cfg
      (by intro f hf hfld; fin_cases hf <;>
        first | exact absurd hfld (by decide) | simp [paramValue, fSampleIndex, hsi])
    simp only [getVal, ConfigValue.vstr.injEq] at h1
    exact h1

/-- C4 (confirmed): set rejects a value outside a choice-restricted
string field with the invalid-value error, rejects malformed int, float
and bool strings with the parse error, leaves the configuration
untouched on every failure, and on success mutates no field other than
the target. -/
theorem claim_c4 (cfg : PprofConfig) (f : ConfigField) (v : String) :
    (fieldKind f.field = FieldKind.kstr → f.choices ≠ [] → f.choices.contains v = false →
      PprofConfig.set cfg f v = (cfg, some ("invalid \"" ++ f.name ++ "\" value \"" ++ v ++ "\"")))
    ∧ (∀ e, fieldKind f.field = FieldKind.kint → goAtoi v = Except.error e →
        PprofConfig.set cfg f v = (cfg, some e))
    ∧ (∀ e, fieldKind f.field = FieldKind.kfloat → goParseFloat v = Except.error e →
        PprofConfig.set cfg f v = (cfg, some e))
    ∧ (∀ e, fieldKind f.field = FieldKind.kbool → stringToBool v = Except.error e →
        PprofConfig.set cfg f v = (cfg, some e))
    ∧ (∀ e, (PprofConfig.set cfg f v).2 = some e → (PprofConfig.set cfg f v).1 = cfg)
    ∧ (∀ g ∈ allFieldIds, g ≠ f.field →
        getVal (PprofConfig.set cfg f v).1 g = getVal cfg g) := by
  refine ⟨?_, ?_, ?_, ?_, ?_, ?_⟩
  · intro hk hc hm
    have hm2 : ¬ v ∈ f.choices := by simpa using hm
    simp [PprofConfig.set, hk, hc, hm2]
  · intro e hk ha
    simp [PprofConfig.set, hk, ha]
  · intro e hk ha
    simp [PprofConfig.set, hk, ha]
  · intro e hk ha
    simp [PprofConfig.set, hk, ha]
  · intro e
    exact set_fail_fst cfg f v e
  · intro g hg hne
    exact set_fst_getVal_ne cfg f v g hne

/-- C4 witness: the choice field sort rejects xyz; nodecount,
nodefraction and trim reject malformed strings with parse errors, the
configuration staying at its prior value each time. -/
theorem claim_c4_witness :
    PprofConfig.set DefaultConfig fSort "xyz"
      = (DefaultConfig, some "invalid \"sort\" value \"xyz\"") ∧
    PprofConfig.set DefaultConfig fNodeCount "bad"
      = (DefaultConfig, some "strconv.Atoi: parsing \"bad\": invalid syntax") ∧
    PprofConfig.set DefaultConfig fNodeFraction "bad"
      = (DefaultConfig, some "strconv.ParseFloat: parsing \"bad\": invalid syntax") ∧
    PprofConfig.set DefaultConfig fTrim "bad"
      = (DefaultConfig, some "illegal value \"bad\" for bool variable") :=
  ⟨(claim_c4 DefaultConfig fSort "xyz").1 rfl (by decide) (by decide),
   (claim_c4 DefaultConfig fNodeCount "bad").2.1 _ rfl (by decide),
   (claim_c4 DefaultConfig fNodeFraction "bad").2.2.1 _ rfl (by decide),
   (claim_c4 DefaultConfig fTrim "bad").2.2.2.1 _ rfl (by decide)⟩

/-- C5 (confirmed): configure applies value via set when name is a
canonical field name; when name is a choice of a field and value
parses as boolean true it sets the field to name itself; a choice name
with a value that is false or malformed, and an unknown name, fail
with the unknown-field error; in particular cum/true sets sort to cum
and cum/false is an unknown-field failure. -/
theorem claim_c5 (cfg : PprofConfig) (name value : String) :
    (∀ f, configFieldMap name = some f → f.name = name →
      configure cfg name value = PprofConfig.set cfg f value)
    ∧ (∀ f, configFieldMap name = some f → f.name ≠ name → goParseBool value = Except.ok true →
      configure cfg name value = PprofConfig.set cfg f name)
    ∧ (∀ f, configFieldMap name = some f → f.name ≠ name → goParseBool value ≠ Except.ok true →
      configure cfg name value = (cfg, some ("unknown PprofConfig field \"" ++ name ++ "\"")))
    ∧ (configFieldMap name = none →
      configure cfg name value = (cfg, some ("unknown PprofConfig field \"" ++ name ++ "\"")))
    ∧ configure cfg "cum" "true" = ({ cfg with SortOrder := "cum" }, none)
    ∧ configure cfg "cum" "false" = (cfg, some "unknown PprofConfig field \"cum\"") := by
  refine ⟨?_, ?_, ?_, ?_, rfl, rfl⟩
  · intro f hm hn
    simp only [configure, hm]
    rw [if_pos hn]
  · intro f hm hn hb
    simp only [configure, hm]
    rw [if_neg hn, hb]
  · intro f hm hn hb
    simp only [configure, hm]
    rw [if_neg hn]
  · intro hm
    simp only [configure, hm]

/-- C5 witness: cum/true sets sort to cum, cum/false and an unknown
name fail with the unknown-field error, and sort/cum goes through set. -/
theorem claim_c5_witness :
    configure DefaultConfig "cum" "true" = ({ DefaultConfig with SortOrder := "cum" }, none) ∧
    configure DefaultConfig "cum" "false"
      = (DefaultConfig, some "unknown PprofConfig field \"cum\"") ∧
    configure DefaultConfig "sort" "cum" = ({ DefaultConfig with SortOrder := "cum" }, none) ∧
    configure DefaultConfig "bogus" "1"
      = (DefaultConfig, some "unknown PprofConfig field \"bogus\"") := by
  refine ⟨(claim_c5 DefaultConfig "cum" "true").2.2.2.2.1,
          (claim_c5 DefaultConfig "cum" "false").2.2.2.2.2, ?_, ?_⟩
  · rw [(claim_c5 DefaultConfig "sort" "cum").1 fSort (by decide) rfl]
    decide
  · exact (claim_c5 DefaultConfig "bogus" "1").2.2.2.1 (by decide)

/-- C6 (confirmed): decodeFromURL walks the registry in its fixed
order; when every field before f succeeds (producing c) and the
assignment of f fails, the whole decode returns c (all earlier
mutations kept, decode not transactional) with the error wrapped with
the field name, and later fields are not processed; concretely,
decoding unit=ms, n=bad, g=lines applies unit=ms, stops at nodecount
with the wrapped Atoi error and never applies g=lines, while absent or
empty parameters leave even non-default field values untouched. -/
theorem claim_c6 (cfg0 c : PprofConfig) (pre post : List ConfigField) (f : ConfigField)
    (params : Values) (e : String)
    (hsplit : configFields = pre ++ f :: post)
    (hpre : applyURLAux cfg0 pre params = (c, none))
    (hval : paramValue f params ≠ "")
    (hfail : (PprofConfig.set c f (paramValue f params)).2 = some e) :
    applyURL cfg0 params
      = (c, some ("error setting PprofConfig field " ++ f.name ++ ": " ++ e))
    ∧ applyURL DefaultConfig [("unit", "ms"), ("n", "bad"), ("g", "lines")]
      = ({ DefaultConfig with Unit := "ms" },
         some "error setting PprofConfig field nodecount: strconv.Atoi: parsing \"bad\": invalid syntax")
    ∧ applyURL { DefaultConfig with Focus := "foo", Unit := "ms", SampleIndex := "8" } [("n", "7")]
      = ({ DefaultConfig with Focus := "foo", Unit := "ms", SampleIndex := "8", NodeCount := 7 },
         none) := by
  refine ⟨?_, by decide, by decide⟩
  unfold applyURL
  rw [hsplit, applyURLAux_append_ok (f :: post) params pre cfg0 c hpre]
  simp only [applyURLAux]
  rw [if_neg hval]
  have hc1 := set_fail_fst c f (paramValue f params) e hfail
  rcases hset : PprofConfig.set c f (paramValue f params) with ⟨c1, err⟩
  rw [hset] at hfail hc1
  have herr : err = some e := by simpa using hfail
  subst herr
  have hcc : c1 = c := by simpa using hc1
  subst hcc
  rfl

/-- C6 witness: the registry split at nodecount with the unit=ms,
n=bad, g=lines query. -/
theorem claim_c6_witness :
    applyURL DefaultConfig [("unit", "ms"), ("n", "bad"), ("g", "lines")]
      = ({ DefaultConfig with Unit := "ms" },
         some "error setting PprofConfig field nodecount: strconv.Atoi: parsing \"bad\": invalid syntax") :=
  (claim_c6 DefaultConfig { DefaultConfig with Unit := "ms" }
    [fOutput, fCallTree, fRelativePercentages, fUnit, fCompactLabels, fSourcePath,
     fTrimPath, fIntel, fMean, fSampleIndex, fDivideBy, fNormalize, fSort, fDropNegative]
    [fNodeFraction, fEdgeFraction, fTrim, fFocus, fIgnore, fPruneFrom, fHide, fShow,
     fShowFrom, fTagFocus, fTagIgnore, fTagShow, fTagHide, fNoInlines, fGranularity]
    fNodeCount [("unit", "ms"), ("n", "bad"), ("g", "lines")]
    "strconv.Atoi: parsing \"bad\": invalid syntax"
    (by decide) (by decide) (by decide) (by decide)).1

/-- C7 (confirmed): a boolean field renders internally as the full
strings true/false through get; when its value differs from the
default, the encode loop shortens it to its first byte, t or f; the
URL decoder stringToBool maps t to true and f to false, and set on a
boolean field with t or f stores true or false; concretely, encoding
call_tree=true produces calltree=t and encoding trim=false (default
true) produces trim=f. -/
theorem claim_c7 (cfg : PprofConfig) (f : ConfigField)
    (hb : fieldKind f.field = FieldKind.kbool) :
    (PprofConfig.get cfg f.field = "true" ∨ PprofConfig.get cfg f.field = "false")
    ∧ (PprofConfig.get cfg f.field ≠ f.defaultValue →
        encodeField cfg f = String.mk ((PprofConfig.get cfg f.field).data.take 1)
        ∧ ((encodeField cfg f = "t" ∧ getVal cfg f.field = ConfigValue.vbool true)
           ∨ (encodeField cfg f = "f" ∧ getVal cfg f.field = ConfigValue.vbool false)))
    ∧ stringToBool "t" = Except.ok true
    ∧ stringToBool "f" = Except.ok false
    ∧ PprofConfig.set cfg f "t" = (updateField cfg f.field (ConfigValue.vbool true), none)
    ∧ PprofConfig.set cfg f "f" = (updateField cfg f.field (ConfigValue.vbool false), none)
    ∧ makeURL { DefaultConfig with CallTree := true } ⟨[]⟩ = (⟨[("calltree", "t")]⟩, true)
    ∧ makeURL { DefaultConfig with Trim := false } ⟨[]⟩ = (⟨[("trim", "f")]⟩, true) := by
  obtain ⟨b, hvb⟩ : ∃ b, getVal cfg f.field = ConfigValue.vbool b :=
    ⟨_, getVal_bool cfg f.field hb⟩
  have hget : PprofConfig.get cfg f.field = if b then "true" else "false" := by
    simp [PprofConfig.get, hvb]
  refine ⟨?_, ?_, rfl, rfl, ?_, ?_, by decide, by decide⟩
  · rw [hget]
    cases b
    · exact Or.inr rfl
    · exact Or.inl rfl
  · intro hne
    have henc : encodeField cfg f = String.mk ((PprofConfig.get cfg f.field).data.take 1) := by
      unfold encodeField
      rw [if_neg hne, if_pos hb]
    refine ⟨henc, ?_⟩
    rw [henc, hget]
    cases b
    · exact Or.inr ⟨by decide, hvb⟩
    · exact Or.inl ⟨by decide, hvb⟩
  · simp [PprofConfig.set, hb, stringToBool]
  · simp [PprofConfig.set, hb, stringToBool]

/-- C7 witness: the call_tree field of the default configuration. -/
theorem claim_c7_witness :
    PprofConfig.get DefaultConfig fCallTree.field = "false" ∧
    stringToBool "t" = Except.ok true ∧
    makeURL { DefaultConfig with CallTree := true } ⟨[]⟩ = (⟨[("calltree", "t")]⟩, true) :=
  ⟨Or.elim (claim_c7 DefaultConfig fCallTree rfl).1
      (fun h => absurd h (by decide)) id,
   (claim_c7 DefaultConfig fCallTree rfl).2.2.1,
   (claim_c7 DefaultConfig fCallTree rfl).2.2.2.2.2.2.1⟩

/-- C8 (confirmed): encoding is idempotent: a second encodeToURL of the
same configuration against the URL produced by the first returns that
URL unmodified with changed=false; and whenever every persisted
URL-mapped field's encoded value already equals the parameter value in
the URL, encodeToURL returns the original URL unmodified with
changed=false. -/
theorem claim_c8 (cfg : PprofConfig) (u : URL) :
    makeURL cfg (makeURL cfg u).1 = ((makeURL cfg u).1, false)
    ∧ ((∀ f ∈ configFields, f.saved = true → f.urlparam ≠ "" →
        valuesGet u.query f.urlparam = encodeField cfg f) → makeURL cfg u = (u, false)) := by
  have hsecond : ∀ w : URL, (∀ f ∈ configFields, f.saved = true → f.urlparam ≠ "" →
      valuesGet w.query f.urlparam = encodeField cfg f) → makeURL cfg w = (w, false) := by
    intro w hw
    simp only [makeURL]
    rw [makeURLAux_skip cfg configFields w.query false hw]
    simp
  refine ⟨?_, hsecond u⟩
  rcases hr : makeURLAux cfg configFields u.query false with ⟨q1, c1⟩
  have hmu : makeURL cfg u = (if c1 then { u with query := q1 } else u, c1) := by
    simp only [makeURL]
    rw [hr]
  cases c1 with
  | false =>
    obtain ⟨-, hall⟩ := makeURLAux_false cfg configFields u.query (by rw [hr])
    rw [hmu]
    exact hsecond u hall
  | true =>
    have hpost := makeURLAux_post cfg configFields u.query false (by decide)
    rw [hr] at hpost
    rw [hmu]
    exact hsecond { u with query := q1 } hpost

/-- C8 witness: a second encode over the URL produced from n=5. -/
theorem claim_c8_witness :
    makeURL DefaultConfig (makeURL DefaultConfig ⟨[("n", "5")]⟩).1
      = ((makeURL DefaultConfig ⟨[("n", "5")]⟩).1, false) :=
  (claim_c8 DefaultConfig ⟨[("n", "5")]⟩).1

/-- C10 (confirmed): every choice value of the two multi-choice string
fields is reported by isBoolConfig as boolean-assignable even though
the owning field is a string field; a canonical field name is reported
boolean exactly when the field type is boolean; an unregistered name is
not boolean-assignable. -/
theorem claim_c10 (name : String) (h : configFieldMap name = none) :
    isBoolConfig name = false
    ∧ (["cum", "flat", "functions", "filefunctions", "files", "lines", "addresses"].all
        (fun s => isBoolConfig s) = true)
    ∧ (configFields.all
        (fun f => isBoolConfig f.name == decide (fieldKind f.field = FieldKind.kbool)) = true) := by
  refine ⟨?_, by decide, by decide⟩
  simp [isBoolConfig, h]

/-- C10 witness: the unregistered name bogus. -/
theorem claim_c10_witness : isBoolConfig "bogus" = false :=
  (claim_c10 "bogus" (by decide)).1

/-- C3 witness: overriding the transient fields does not change the
encode result. -/
theorem claim_c3_witness :
    makeURL { DefaultConfig with Output := "o", SourcePath := "s", TrimPath := "t",
                                 DivideBy := ⟨2, 0⟩, SampleIndex := "i" } ⟨[]⟩
      = makeURL DefaultConfig ⟨[]⟩ :=
  (claim_c3 DefaultConfig ⟨[]⟩ [] "o" "s" "t" "i" ⟨2, 0⟩).1

/-- C9 witness: a missing settings file reads as empty settings. -/
theorem claim_c9_witness :
    readSettings DefaultConfig ReadFileResult.notExist = Except.ok ⟨[]⟩ :=
  (claim_c9 DefaultConfig "m" "d" ⟨[]⟩ none none).1
